import Mathlib

set_option autoImplicit false

/-!
Verification development for the blurr transformer core
(`blurr/core/transformer.py`).  Python dictionaries are embedded as
insertion-ordered association lists with upsert semantics; raising an
exception is embedded as returning `Except.error`; objects mutated in place
(the per-schema `schema_context` shared by every `Transformer` built from
that schema) are embedded by threading their state explicitly.
-/

namespace Blurr

/-- Python `dict` membership / subscript read: the value bound to the first
occurrence of the key, `none` when the key is absent. -/
def dictLookup {κ α : Type} [DecidableEq κ] : List (κ × α) → κ → Option α
  | [], _ => none
  | (k1, v1) :: rest, k => if k1 = k then some v1 else dictLookup rest k

/-- Python `dict` write (`d[k] = v`): replace the value at an existing key in
place, otherwise append the new binding at the end (insertion order). -/
def dictInsert {κ α : Type} [DecidableEq κ] : List (κ × α) → κ → α → List (κ × α)
  | [], k, v => [(k, v)]
  | (k1, v1) :: rest, k, v =>
    if k1 = k then (k1, v) :: rest else (k1, v1) :: dictInsert rest k v

/-- The keys of an embedded dict, in insertion order. -/
def dictKeys {κ α : Type} (d : List (κ × α)) : List κ := d.map Prod.fst

/-- Python `dict.update(other)`: upsert every binding of `other`, in order. -/
def dictUpdate {κ α : Type} [DecidableEq κ] (d other : List (κ × α)) : List (κ × α) :=
  other.foldl (fun acc p => dictInsert acc p.1 p.2) d

/-- A nested `DataGroups` specification entry: the core consumes its declared
`Name` and `Type` (`blurr/core/transformer.py`, `TransformerSchema`). -/
structure DataGroupSpec where
  name : String
  type : String
deriving DecidableEq, Repr

/-- Snapshot persisted for a data group: mapping from field name to value. -/
abbrev Snapshot := List (String × String)

/-- Modelled from the spec: the runtime `DataGroup` (its module is not part of
the slice under verification).  Section 3 "Runtime item": it records its schema
name, declared type and the identity it was constructed for, owns its current
field values, and carries an open/closed lifecycle flag. -/
structure DataGroupState where
  name : String
  typeName : String
  identity : String
  fields : Snapshot
  closed : Bool
deriving DecidableEq, Repr

/-- Values bound in an evaluation scope: the identity string, imported module
objects, attributes of imported modules, and data groups merged by name. -/
inductive Value where
  | str (s : String)
  | module (name : String)
  | moduleAttr (moduleName attr : String)
  | group (g : DataGroupState)
deriving DecidableEq, Repr

/-- Modelled from the spec: `Context` (`blurr/core/evaluation.py` is not part
of the slice) — a named-value scope, a dict of bindings. -/
structure Context where
  frame : List (String × Value)
deriving DecidableEq, Repr

/-- Modelled from the spec: `Context.add` creates or overwrites a binding. -/
def Context.add (c : Context) (k : String) (v : Value) : Context :=
  ⟨dictInsert c.frame k v⟩

/-- Modelled from the spec: `Context.merge` exposes every binding of the
merged-in mapping through this scope. -/
def Context.merge (c : Context) (other : List (String × Value)) : Context :=
  ⟨dictUpdate c.frame other⟩

/-- Lookup of a name in one scope. -/
def Context.find (c : Context) (k : String) : Option Value :=
  dictLookup c.frame k

/-- Modelled from the spec: `EvaluationContext` — a chain of a global (root)
scope and a local scope (spec section 4.2). -/
structure EvaluationContext where
  globalContext : Context
  localContext : Context
deriving DecidableEq, Repr

/-- A freshly constructed `EvaluationContext()`: both scopes empty. -/
def EvaluationContext.empty : EvaluationContext := ⟨⟨[]⟩, ⟨[]⟩⟩

/-- Modelled from the spec: `EvaluationContext.global_add` writes into the
root scope, visible to every descendant (spec section 4.2 `bind_global`). -/
def EvaluationContext.global_add (ctx : EvaluationContext) (k : String) (v : Value) :
    EvaluationContext :=
  { ctx with globalContext := ctx.globalContext.add k v }

/-- Modelled from the spec: identifier resolution — local scope first, then
delegate to the parent (global) scope (spec section 4.2 `resolve`). -/
def EvaluationContext.resolve (ctx : EvaluationContext) (k : String) : Option Value :=
  (ctx.localContext.find k).orElse (fun _ => ctx.globalContext.find k)

/-- Errors raised by the transformer core.  `missingAttribute` embeds
`MissingAttributeError`, `attributeError` a plain `AttributeError`,
`keyError` a `KeyError` from a mandatory subscript read, and
`requiredAttributeError` the schema validation failure for a missing
required collection attribute. -/
inductive CoreError where
  | missingAttribute (msg : String)
  | attributeError (msg : String)
  | keyError (key : String)
  | requiredAttributeError (attr : String)
deriving DecidableEq, Repr

/-- One entry of the `Import` list: a `Module` name and an optional
`Identifier` list (`{Module, Identifier[]}`). -/
structure ImportSpec where
  module : String
  identifier : Option (List String)
deriving DecidableEq, Repr

/-- One entry of the `Stores` list: its `Name` and `Type`. -/
structure StoreSpec where
  name : String
  type : String
deriving DecidableEq, Repr

/-- The attribute mapping a transformer specification node exposes: required
`Version`, optional `Description`, optional `Stores`, the nested `DataGroups`
sequence, optional `Import`.  Absence of a key is `none`. -/
structure TransformerSpecMap where
  version : Option String
  description : Option String
  stores : Option (List StoreSpec)
  dataGroups : Option (List DataGroupSpec)
  importList : Option (List ImportSpec)
deriving DecidableEq, Repr

/-- Modelled from the spec: `TypeLoader.import_by_full_name` (the custom
module-loading utilities are out of scope) locates the module with the given
full name and returns its module object. -/
def TypeLoader.importByFullName (moduleName : String) : Value :=
  .module moduleName

/-- Modelled from the spec: `getattr(module_obj, identifier)` — the named
attribute of an imported module. -/
def moduleGetAttr (moduleName attr : String) : Value :=
  .moduleAttr moduleName attr

/-- `TransformerSchema.import_modules` (`blurr/core/transformer.py` lines
48-60), iterating over the `Import` list.  For an entry with no `Identifier`
the source binds the module object and executes `return`, leaving the rest of
the list unprocessed; for an entry with an `Identifier` list it binds each
identifier to that attribute of the module and continues. -/
def importModulesList : List ImportSpec → EvaluationContext → EvaluationContext
  | [], ctx => ctx
  | customImport :: rest, ctx =>
    let moduleObj := TypeLoader.importByFullName customImport.module
    match customImport.identifier with
    | none =>
      -- `self.schema_context.global_add(module, module_obj)` then `return`:
      -- the remaining entries of the list are never visited.
      ctx.global_add customImport.module moduleObj
    | some ids =>
      importModulesList rest
        (ids.foldl (fun c idName => c.global_add idName (moduleGetAttr customImport.module idName)) ctx)

/-- `TransformerSchema.import_modules` including the `None` guard on
`self.import_list`. -/
def importModules (importList : Option (List ImportSpec)) (ctx : EvaluationContext) :
    EvaluationContext :=
  match importList with
  | none => ctx
  | some l => importModulesList l ctx

/-- Modelled from the spec: `SchemaLoader.get_nested_schema_object` (the
schema loader is an out-of-scope collaborator) resolves the nested
specification registered under the given name; the specification source is an
attribute mapping with stable key ordering, so of several nested entries
declaring the same name the mapping retains the last. -/
def getNestedSchemaObject (storeSpecs : List StoreSpec) (name : String) : Option StoreSpec :=
  (storeSpecs.filter (fun s => s.name == name)).getLast?

/-- The built `TransformerSchema`: the validated nested `DataGroups` entries in
declaration order, the recorded `Version` / `Description` / `Stores` /
`Import` attributes, and the per-schema `schema_context` created by
`__init__` and populated by `import_modules`. -/
structure TransformerSchema where
  name : String
  nestedSchema : List DataGroupSpec
  version : String
  description : Option String
  stores : List (String × Option StoreSpec)
  importList : Option (List ImportSpec)
  schemaContext : EvaluationContext
deriving DecidableEq, Repr

/-- `TransformerSchema.__init__` (`blurr/core/transformer.py` lines 28-46) as
a fallible constructor.  `super().__init__(…, ATTRIBUTE_DATA_GROUPS)` is
modelled from the spec (`BaseSchemaCollection` is not part of the slice): it
validates the presence of the nested `DataGroups` attribute.  Then, as in the
source: `self._spec[ATTRIBUTE_VERSION]` raises a `KeyError` when `Version` is
absent; `Description` is read only when present; the `Stores` list defaults to
`[]` and is folded into a name-keyed dict whose values come from
`schema_loader.get_nested_schema_object`; `Import` is read only when present;
a fresh `EvaluationContext` becomes `schema_context` and `import_modules`
populates it. -/
def TransformerSchema.build (fullyQualifiedName : String) (spec : TransformerSpecMap) :
    Except CoreError TransformerSchema :=
  match spec.dataGroups with
  | none => .error (.requiredAttributeError "DataGroups")
  | some nested =>
    match spec.version with
    | none => .error (.keyError "Version")
    | some version =>
      let description := spec.description
      let storeSpecs := spec.stores.getD []
      let stores := storeSpecs.foldl
        (fun acc schemaSpec =>
          dictInsert acc schemaSpec.name (getNestedSchemaObject storeSpecs schemaSpec.name)) []
      let importList := spec.importList
      let schemaContext := importModules importList EvaluationContext.empty
      .ok { name := fullyQualifiedName, nestedSchema := nested, version := version,
            description := description, stores := stores, importList := importList,
            schemaContext := schemaContext }

/-- Modelled from the spec: `TypeLoader.load_item` resolves the declared type
name through the name-to-constructor registry (spec section 4.1 / design note
on polymorphic construction); the constructor builds the runtime `DataGroup`
for the given item schema and identity, with no field values yet and its
window open. -/
def TypeLoader.loadItem (typeName : String) (itemSchema : DataGroupSpec) (identity : String) :
    DataGroupState :=
  { name := itemSchema.name, typeName := typeName, identity := identity,
    fields := [], closed := false }

/-- The runtime `Transformer`: its schema name (`self._name`), the
`_data_groups` dict in insertion order, and `_identity`. -/
structure Transformer where
  name : String
  dataGroups : List (String × DataGroupState)
  identity : String
deriving DecidableEq, Repr

/-- `Transformer.__init__` (`blurr/core/transformer.py` lines 69-79).  The
schema's `schema_context` is passed to `super().__init__` by reference, so the
evaluation context a `Transformer` mutates is the per-schema shared one; its
state is threaded explicitly here.  In source order: the `_data_groups` dict
comprehension constructs one item per `nested_schema` entry via
`TypeLoader.load_item(item_schema.type)`; `global_add('identity', identity)`
writes into the shared root scope; `global_context.merge(self._nested_items)`
merges the name-to-group dict into the shared root scope. -/
def Transformer.construct (schema : TransformerSchema) (sharedContext : EvaluationContext)
    (identity : String) : Transformer × EvaluationContext :=
  let dataGroups := schema.nestedSchema.foldl
    (fun acc itemSchema =>
      dictInsert acc itemSchema.name (TypeLoader.loadItem itemSchema.type itemSchema identity)) []
  let ctx1 := sharedContext.global_add "identity" (Value.str identity)
  let ctx2 := { ctx1 with
    globalContext := ctx1.globalContext.merge (dataGroups.map (fun p => (p.1, Value.group p.2))) }
  ({ name := schema.name, dataGroups := dataGroups, identity := identity }, ctx2)

/-- `Transformer.__getitem__` (`blurr/core/transformer.py` lines 104-113):
raise `MissingAttributeError('{item} not defined in {name}')` when the item is
not in `self._nested_items`, otherwise return the bound data group. -/
def Transformer.getItem (t : Transformer) (item : String) : Except CoreError DataGroupState :=
  match dictLookup t.dataGroups item with
  | none => .error (.missingAttribute (item ++ " not defined in " ++ t.name))
  | some g => .ok g

/-- `Transformer.__getattr__` (`blurr/core/transformer.py` lines 95-102):
`return self.__getitem__(item)`. -/
def Transformer.getAttrImpl (t : Transformer) (item : String) : Except CoreError DataGroupState :=
  t.getItem item

/-- `Transformer.__getitem__` viewed as a state transformer on the transformer
and its evaluation context: the method body only reads `self._nested_items`
and `self._name`, so the post-state equals the pre-state. -/
def Transformer.getItemStateful (t : Transformer) (ctx : EvaluationContext) (item : String) :
    Except CoreError DataGroupState × Transformer × EvaluationContext :=
  (t.getItem item, t, ctx)

/-- A store key: the identity and the group name addressing a snapshot. -/
structure StoreKey where
  identity : String
  group : String
deriving DecidableEq, Repr

/-- The pluggable Store, embedded as its in-memory implementation: a
key-addressed mapping of snapshots with upsert semantics (spec section 4.3). -/
abbrev Store := List (StoreKey × Snapshot)

/-- Modelled from the spec: `Store.set` — upsert, overwriting any existing
snapshot for the key (spec section 4.3). -/
def Store.set (st : Store) (k : StoreKey) (snapshot : Snapshot) : Store :=
  dictInsert st k snapshot

/-- Modelled from the spec: `DataGroup.finalize` persists the final snapshot
to the Store and marks the group closed (spec section 4.4); finalize is
idempotent per DataGroup — the second call is a no-op once closed (spec
section 5). -/
def DataGroupState.finalize (g : DataGroupState) (store : Store) : DataGroupState × Store :=
  if g.closed then (g, store)
  else ({ g with closed := true }, store.set ⟨g.identity, g.name⟩ g.fields)

/-- The loop body of `Transformer.finalize`: finalize each nested item in dict
order, threading the store; the returned list of names is the trace of
finalize invocations, in order. -/
def finalizeItems : List (String × DataGroupState) → Store →
    List (String × DataGroupState) × Store × List String
  | [], store => ([], store, [])
  | (name, g) :: rest, store =>
    let r1 := g.finalize store
    let r2 := finalizeItems rest r1.2
    ((name, r1.1) :: r2.1, r2.2.1, name :: r2.2.2)

/-- `Transformer.finalize` (`blurr/core/transformer.py` lines 88-93):
`for item in self._nested_items.values(): item.finalize()`. -/
def Transformer.finalize (t : Transformer) (store : Store) :
    Transformer × Store × List String :=
  let r := finalizeItems t.dataGroups store
  ({ t with dataGroups := r.1 }, r.2.1, r.2.2)

end Blurr

namespace Blurr

/-! ### Dictionary lemmas -/

@[simp] theorem dictKeys_nil {κ α : Type} : dictKeys ([] : List (κ × α)) = [] := rfl

@[simp] theorem dictKeys_cons {κ α : Type} (p : κ × α) (d : List (κ × α)) :
    dictKeys (p :: d) = p.1 :: dictKeys d := rfl

@[simp] theorem dictUpdate_nil {κ α : Type} [DecidableEq κ] (d : List (κ × α)) :
    dictUpdate d [] = d := rfl

@[simp] theorem dictUpdate_cons {κ α : Type} [DecidableEq κ] (d : List (κ × α)) (k : κ)
    (v : α) (rest : List (κ × α)) :
    dictUpdate d ((k, v) :: rest) = dictUpdate (dictInsert d k v) rest := rfl

theorem dictLookup_insert_self {κ α : Type} [DecidableEq κ] (d : List (κ × α)) (k : κ)
    (v : α) : dictLookup (dictInsert d k v) k = some v := by
  induction d with
  | nil => simp [dictInsert, dictLookup]
  | cons p rest ih =>
    obtain ⟨k1, v1⟩ := p
    by_cases h : k1 = k
    · simp [dictInsert, dictLookup, h]
    · simp [dictInsert, dictLookup, h, ih]

theorem dictLookup_insert_ne {κ α : Type} [DecidableEq κ] (d : List (κ × α)) (k k2 : κ)
    (v : α) (h : k2 ≠ k) : dictLookup (dictInsert d k2 v) k = dictLookup d k := by
  induction d with
  | nil => simp [dictInsert, dictLookup, h]
  | cons p rest ih =>
    obtain ⟨k1, v1⟩ := p
    by_cases h1 : k1 = k2
    · subst h1
      simp [dictInsert, dictLookup, h]
    · simp [dictInsert, dictLookup, h1, ih]

theorem dictLookup_eq_none {κ α : Type} [DecidableEq κ] (d : List (κ × α)) (k : κ) :
    dictLookup d k = none ↔ k ∉ dictKeys d := by
  induction d with
  | nil => simp [dictLookup]
  | cons p rest ih =>
    obtain ⟨k1, v1⟩ := p
    by_cases h : k1 = k
    · simp [dictLookup, h]
    · simp [dictLookup, h, ih]
      exact fun _ he => h he.symm

theorem dictInsert_notmem {κ α : Type} [DecidableEq κ] (d : List (κ × α)) (k : κ) (v : α)
    (h : k ∉ dictKeys d) : dictInsert d k v = d ++ [(k, v)] := by
  induction d with
  | nil => simp [dictInsert]
  | cons p rest ih =>
    obtain ⟨k1, v1⟩ := p
    have hmem : ¬(k = k1 ∨ k ∈ dictKeys rest) := by simpa using h
    have h1 : k1 ≠ k := fun hk => hmem (Or.inl hk.symm)
    have h2 : k ∉ dictKeys rest := fun hk => hmem (Or.inr hk)
    simp [dictInsert, h1, ih h2]

theorem dictLookup_of_mem {κ α : Type} [DecidableEq κ] (d : List (κ × α)) (k : κ) (v : α)
    (hnodup : (dictKeys d).Nodup) (hmem : (k, v) ∈ d) : dictLookup d k = some v := by
  induction d with
  | nil => simp at hmem
  | cons p rest ih =>
    obtain ⟨k1, v1⟩ := p
    rcases List.mem_cons.mp hmem with heq | hmem2
    · have h1 : k = k1 := congrArg Prod.fst heq
      have h2 : v = v1 := congrArg Prod.snd heq
      subst h1; subst h2
      simp [dictLookup]
    · have hk1 : k1 ∉ dictKeys rest := (List.nodup_cons.mp (by simpa using hnodup)).1
      have hkmem : k ∈ dictKeys rest := List.mem_map_of_mem Prod.fst hmem2
      have hne : k1 ≠ k := fun he => hk1 (he ▸ hkmem)
      have := ih (List.nodup_cons.mp (by simpa using hnodup)).2 hmem2
      simp [dictLookup, hne, this]

theorem dictLookup_update_notmem {κ α : Type} [DecidableEq κ] (d other : List (κ × α))
    (k : κ) (h : k ∉ dictKeys other) :
    dictLookup (dictUpdate d other) k = dictLookup d k := by
  induction other generalizing d with
  | nil => simp
  | cons p rest ih =>
    obtain ⟨k1, v1⟩ := p
    have hmem : ¬(k = k1 ∨ k ∈ dictKeys rest) := by simpa using h
    have h1 : k1 ≠ k := fun hk => hmem (Or.inl hk.symm)
    have h2 : k ∉ dictKeys rest := fun hk => hmem (Or.inr hk)
    rw [dictUpdate_cons, ih _ h2, dictLookup_insert_ne _ _ _ _ h1]

theorem dictLookup_update_mem {κ α : Type} [DecidableEq κ] (d other : List (κ × α))
    (k : κ) (v : α) (hnodup : (dictKeys other).Nodup) (hmem : (k, v) ∈ other) :
    dictLookup (dictUpdate d other) k = some v := by
  induction other generalizing d with
  | nil => simp at hmem
  | cons p rest ih =>
    obtain ⟨k1, v1⟩ := p
    rw [dictUpdate_cons]
    rcases List.mem_cons.mp hmem with heq | hmem2
    · have h1 : k = k1 := congrArg Prod.fst heq
      have h2 : v = v1 := congrArg Prod.snd heq
      subst h1; subst h2
      have hk : k ∉ dictKeys rest := (List.nodup_cons.mp (by simpa using hnodup)).1
      rw [dictLookup_update_notmem _ _ _ hk, dictLookup_insert_self]
    · exact ih _ (List.nodup_cons.mp (by simpa using hnodup)).2 hmem2

end Blurr

namespace Blurr

/-! ### Construction lemmas -/

theorem buildGroups_eq (l : List DataGroupSpec) (identity : String)
    (acc : List (String × DataGroupState))
    (hnodup : (l.map DataGroupSpec.name).Nodup)
    (hacc : ∀ s ∈ l, s.name ∉ dictKeys acc) :
    l.foldl (fun acc itemSchema =>
        dictInsert acc itemSchema.name
          (TypeLoader.loadItem itemSchema.type itemSchema identity)) acc
      = acc ++ l.map (fun s => (s.name, TypeLoader.loadItem s.type s identity)) := by
  induction l generalizing acc with
  | nil => simp
  | cons s rest ih =>
    simp only [List.map_cons, List.nodup_cons] at hnodup
    have hacc2 : ∀ t ∈ rest, t.name ∉ dictKeys (acc ++ [(s.name, TypeLoader.loadItem s.type s identity)]) := by
      intro t ht
      have h1 : t.name ∉ dictKeys acc := hacc t (List.mem_cons_of_mem _ ht)
      have h2 : ¬t.name = s.name :=
        fun he => hnodup.1 (he ▸ List.mem_map_of_mem DataGroupSpec.name ht)
      have hsplit : dictKeys (acc ++ [(s.name, TypeLoader.loadItem s.type s identity)])
          = dictKeys acc ++ [s.name] := by simp [dictKeys]
      rw [hsplit]
      intro hmem
      rcases List.mem_append.mp hmem with hmem | hmem
      · exact h1 hmem
      · exact h2 (List.mem_singleton.mp hmem)
    simp only [List.foldl_cons]
    rw [dictInsert_notmem _ _ _ (hacc s (List.mem_cons_self _ _)),
        ih _ hnodup.2 hacc2]
    simp

theorem construct_dataGroups (schema : TransformerSchema) (ctx : EvaluationContext)
    (identity : String)
    (hnodup : (schema.nestedSchema.map DataGroupSpec.name).Nodup) :
    (Transformer.construct schema ctx identity).1.dataGroups
      = schema.nestedSchema.map
          (fun s => (s.name, TypeLoader.loadItem s.type s identity)) := by
  have h := buildGroups_eq schema.nestedSchema identity [] hnodup (by intro s _; simp)
  simpa [Transformer.construct] using h

theorem construct_localContext (schema : TransformerSchema) (ctx : EvaluationContext)
    (identity : String) :
    (Transformer.construct schema ctx identity).2.localContext = ctx.localContext := rfl

theorem construct_globalFrame (schema : TransformerSchema) (ctx : EvaluationContext)
    (identity : String) :
    (Transformer.construct schema ctx identity).2.globalContext.frame
      = dictUpdate (dictInsert ctx.globalContext.frame "identity" (Value.str identity))
          (((Transformer.construct schema ctx identity).1.dataGroups).map
            (fun p => (p.1, Value.group p.2))) := rfl

theorem resolve_of_local_empty (ec : EvaluationContext) (hlocal : ec.localContext = ⟨[]⟩)
    (k : String) : ec.resolve k = ec.globalContext.find k := by
  simp [EvaluationContext.resolve, hlocal, Context.find, dictLookup, Option.orElse]

theorem construct_resolve_identity (schema : TransformerSchema) (ctx : EvaluationContext)
    (identity : String)
    (hnodup : (schema.nestedSchema.map DataGroupSpec.name).Nodup)
    (hid : "identity" ∉ schema.nestedSchema.map DataGroupSpec.name)
    (hlocal : ctx.localContext = ⟨[]⟩) :
    (Transformer.construct schema ctx identity).2.resolve "identity"
      = some (.str identity) := by
  rw [resolve_of_local_empty _ (by rw [construct_localContext]; exact hlocal)]
  show dictLookup (Transformer.construct schema ctx identity).2.globalContext.frame "identity"
      = some (.str identity)
  rw [construct_globalFrame, construct_dataGroups _ _ _ hnodup]
  have hkeys : "identity" ∉ dictKeys
      ((schema.nestedSchema.map (fun s => (s.name, TypeLoader.loadItem s.type s identity))).map
        (fun p => (p.1, Value.group p.2))) := by
    simpa [dictKeys, List.map_map, Function.comp] using hid
  rw [dictLookup_update_notmem _ _ _ hkeys, dictLookup_insert_self]

theorem construct_resolve_group (schema : TransformerSchema) (ctx : EvaluationContext)
    (identity : String)
    (hnodup : (schema.nestedSchema.map DataGroupSpec.name).Nodup)
    (hlocal : ctx.localContext = ⟨[]⟩) :
    ∀ s ∈ schema.nestedSchema,
      (Transformer.construct schema ctx identity).2.resolve s.name
        = some (.group (TypeLoader.loadItem s.type s identity)) := by
  intro s hs
  rw [resolve_of_local_empty _ (by rw [construct_localContext]; exact hlocal)]
  show dictLookup (Transformer.construct schema ctx identity).2.globalContext.frame s.name
      = some (.group (TypeLoader.loadItem s.type s identity))
  rw [construct_globalFrame, construct_dataGroups _ _ _ hnodup]
  have hkeys : (dictKeys
      ((schema.nestedSchema.map (fun s => (s.name, TypeLoader.loadItem s.type s identity))).map
        (fun p => (p.1, Value.group p.2)))).Nodup := by
    simpa [dictKeys, List.map_map, Function.comp] using hnodup
  refine dictLookup_update_mem _ _ _ _ hkeys ?_
  simp only [List.map_map]
  exact List.mem_map_of_mem _ hs

/-! ### Finalize lemmas -/

theorem finalizeItems_trace (l : List (String × DataGroupState)) (store : Store) :
    (finalizeItems l store).2.2 = l.map Prod.fst := by
  induction l generalizing store with
  | nil => rfl
  | cons p rest ih =>
    obtain ⟨name, g⟩ := p
    simp [finalizeItems, ih]

theorem finalize_result_closed (g : DataGroupState) (store : Store) :
    (g.finalize store).1.closed = true := by
  unfold DataGroupState.finalize
  split <;> simp_all

theorem finalizeItems_closed (l : List (String × DataGroupState)) (store : Store) :
    ∀ p ∈ (finalizeItems l store).1, p.2.closed = true := by
  induction l generalizing store with
  | nil => simp [finalizeItems]
  | cons p rest ih =>
    obtain ⟨name, g⟩ := p
    intro q hq
    simp only [finalizeItems, List.mem_cons] at hq
    rcases hq with rfl | hq
    · exact finalize_result_closed g store
    · exact ih _ q hq

theorem finalizeItems_of_closed (l : List (String × DataGroupState)) (store : Store)
    (h : ∀ p ∈ l, p.2.closed = true) :
    (finalizeItems l store).1 = l ∧ (finalizeItems l store).2.1 = store := by
  induction l generalizing store with
  | nil => exact ⟨rfl, rfl⟩
  | cons p rest ih =>
    obtain ⟨name, g⟩ := p
    have hg : g.closed = true := h (name, g) (List.mem_cons_self _ _)
    have hfin : g.finalize store = (g, store) := by
      simp [DataGroupState.finalize, hg]
    have hrest := ih store (fun q hq => h q (List.mem_cons_of_mem _ hq))
    simp [finalizeItems, hfin, hrest.1, hrest.2]

/-! ### Concrete fixtures -/

/-- A concrete constructed data group used by the concrete witnesses. -/
def wGroup : DataGroupState :=
  TypeLoader.loadItem "Blurr:DataGroup:IdentityAggregate"
    { name := "state", type := "Blurr:DataGroup:IdentityAggregate" } "user-1"

/-- A concrete transformer with a single data group named `state`. -/
def wTransformer : Transformer :=
  { name := "test_transformer", dataGroups := [("state", wGroup)], identity := "user-1" }

/-- A concrete transformer schema with two declared data groups. -/
def wSchema : TransformerSchema :=
  { name := "test_transformer",
    nestedSchema := [{ name := "state", type := "Blurr:DataGroup:IdentityAggregate" },
                     { name := "session", type := "Blurr:DataGroup:BlockAggregate" }],
    version := "2018-03-01", description := none, stores := [], importList := none,
    schemaContext := EvaluationContext.empty }

/-- A concrete specification mapping with one declared data group. -/
def c4Spec : TransformerSpecMap :=
  { version := some "2018-03-01", description := none, stores := none,
    dataGroups := some [{ name := "state", type := "Blurr:DataGroup:IdentityAggregate" }],
    importList := none }

/-- A concrete `Import` list whose first entry has no `Identifier` list and is
followed by a second entry. -/
def c3ImportList : List ImportSpec :=
  [{ module := "custom_module_one", identifier := none },
   { module := "custom_module_two", identifier := some ["helper_func"] }]

end Blurr

namespace Blurr

/-- C1: for every Transformer and every name, indexed lookup returns the
DataGroup bound to that name when the name is a declared DataGroup of the
Transformer, and fails with `MissingAttributeError` when it is not. -/
theorem getitem_ok_or_missing (t : Transformer) (item : String) :
    (∀ g, dictLookup t.dataGroups item = some g → t.getItem item = .ok g) ∧
    (dictLookup t.dataGroups item = none →
      t.getItem item
        = .error (.missingAttribute (item ++ " not defined in " ++ t.name))) := by
  constructor
  · intro g h
    simp [Transformer.getItem, h]
  · intro h
    simp [Transformer.getItem, h]

/-- Witness for C1 at a concrete transformer: the declared name `state`
resolves to its data group, the undeclared name `sessions` raises
`MissingAttributeError`. -/
theorem getitem_ok_or_missing_witness :
    wTransformer.getItem "state" = .ok wGroup ∧
    wTransformer.getItem "sessions"
      = .error (.missingAttribute ("sessions" ++ " not defined in " ++ "test_transformer")) :=
  ⟨(getitem_ok_or_missing wTransformer "state").1 wGroup (by decide),
   (getitem_ok_or_missing wTransformer "sessions").2 (by decide)⟩

/-- C2: a lookup of an undeclared DataGroup name leaves the Transformer's
state unchanged — the declared DataGroups (with their states) and the
evaluation context are the same after the failed lookup as before it. -/
theorem getitem_missing_preserves_state (t : Transformer) (ctx : EvaluationContext)
    (item : String) (h : dictLookup t.dataGroups item = none) :
    (t.getItemStateful ctx item).2.1 = t ∧
    (t.getItemStateful ctx item).2.1.dataGroups = t.dataGroups ∧
    (t.getItemStateful ctx item).2.2 = ctx ∧
    (t.getItemStateful ctx item).1
      = .error (.missingAttribute (item ++ " not defined in " ++ t.name)) := by
  refine ⟨rfl, rfl, rfl, ?_⟩
  simp [Transformer.getItemStateful, Transformer.getItem, h]

/-- Witness for C2 at a concrete transformer and an undeclared name. -/
theorem getitem_missing_preserves_state_witness :
    (wTransformer.getItemStateful EvaluationContext.empty "sessions").2.1 = wTransformer ∧
    (wTransformer.getItemStateful EvaluationContext.empty "sessions").2.1.dataGroups
      = wTransformer.dataGroups ∧
    (wTransformer.getItemStateful EvaluationContext.empty "sessions").2.2
      = EvaluationContext.empty ∧
    (wTransformer.getItemStateful EvaluationContext.empty "sessions").1
      = .error (.missingAttribute ("sessions" ++ " not defined in " ++ "test_transformer")) :=
  getitem_missing_preserves_state wTransformer EvaluationContext.empty "sessions" (by decide)

/-- C3 (code behavior at the failing input): in `import_modules`, an entry
without an `Identifier` list executes `return` inside the loop, so the entries
after it are never processed.  With the list
`[{Module: custom_module_one}, {Module: custom_module_two, Identifier: [helper_func]}]`
the first module is registered but `helper_func` — the identifier of the second
entry — is never bound in the schema's global scope, although the claim
requires every entry of the list to be registered. -/
theorem importModules_second_entry_skipped :
    (importModulesList c3ImportList EvaluationContext.empty).resolve "custom_module_one"
        = some (.module "custom_module_one") ∧
    (importModulesList c3ImportList EvaluationContext.empty).resolve "helper_func" = none ∧
    (importModulesList [{ module := "custom_module_two", identifier := some ["helper_func"] }]
        EvaluationContext.empty).resolve "helper_func"
      = some (.moduleAttr "custom_module_two" "helper_func") := by
  refine ⟨?_, ?_, ?_⟩ <;> decide

/-- C8: a specification without the required `Version` attribute fails at
schema-build time; with `Version` present (and the nested `DataGroups`
attribute, which is also required by the collection base), the optional
`Description`, `Stores` and `Import` attributes may all be absent without
causing failure, and the built schema records the version and description. -/
theorem version_required_optionals_absent (fq : String) (spec : TransformerSpecMap) :
    (spec.version = none → ∃ e, TransformerSchema.build fq spec = .error e) ∧
    (∀ v nested, spec.version = some v → spec.dataGroups = some nested →
      ∃ schema, TransformerSchema.build fq spec = .ok schema ∧
        schema.version = v ∧ schema.description = spec.description) := by
  constructor
  · intro h
    unfold TransformerSchema.build
    cases hdg : spec.dataGroups with
    | none => exact ⟨_, rfl⟩
    | some nested =>
      rw [h]
      exact ⟨_, rfl⟩
  · intro v nested hv hdg
    unfold TransformerSchema.build
    rw [hdg, hv]
    exact ⟨_, rfl, rfl, rfl⟩

/-- Witness for C8: a fully empty specification fails to build; a
specification carrying only `Version` and `DataGroups` builds, records the
version, and has no description. -/
theorem version_required_optionals_absent_witness :
    (∃ e, TransformerSchema.build "test_transformer"
        { version := none, description := none, stores := none,
          dataGroups := none, importList := none } = .error e) ∧
    (∃ schema, TransformerSchema.build "test_transformer"
        { version := some "2018-03-01", description := none, stores := none,
          dataGroups := some [], importList := none } = .ok schema ∧
      schema.version = "2018-03-01" ∧ schema.description = none) :=
  ⟨(version_required_optionals_absent "test_transformer" _).1 rfl,
   (version_required_optionals_absent "test_transformer" _).2 "2018-03-01" [] rfl rfl⟩

/-- C10: attribute-style access delegates to indexed access, so both return
the same result; for an undeclared name the failure is a
`MissingAttributeError`, not a plain `AttributeError`. -/
theorem getattr_delegates_to_getitem (t : Transformer) (item : String) :
    t.getAttrImpl item = t.getItem item ∧
    (dictLookup t.dataGroups item = none →
      t.getAttrImpl item
          = .error (.missingAttribute (item ++ " not defined in " ++ t.name)) ∧
        ∀ msg, t.getAttrImpl item ≠ .error (.attributeError msg)) := by
  refine ⟨rfl, fun h => ⟨?_, ?_⟩⟩
  · simp [Transformer.getAttrImpl, Transformer.getItem, h]
  · intro msg hcontra
    simp [Transformer.getAttrImpl, Transformer.getItem, h] at hcontra

/-- Witness for C10 at a concrete transformer and an undeclared name. -/
theorem getattr_delegates_to_getitem_witness :
    wTransformer.getAttrImpl "sessions" = wTransformer.getItem "sessions" ∧
    wTransformer.getAttrImpl "sessions"
      = .error (.missingAttribute ("sessions" ++ " not defined in " ++ "test_transformer")) ∧
    wTransformer.getAttrImpl "sessions" ≠ .error (.attributeError "sessions") :=
  ⟨(getattr_delegates_to_getitem wTransformer "sessions").1,
   ((getattr_delegates_to_getitem wTransformer "sessions").2 (by decide)).1,
   ((getattr_delegates_to_getitem wTransformer "sessions").2 (by decide)).2 "sessions"⟩

end Blurr

namespace Blurr

/-- C5: constructing a Transformer builds exactly one DataGroup per nested
schema entry via the type registry from the entry's declared type, binds
`identity` to the identity string in the shared global scope, and merges the
name-to-DataGroup mapping into the shared global context so that every
declared DataGroup is resolvable by name after construction. -/
theorem construct_builds_groups_and_context (schema : TransformerSchema)
    (ctx : EvaluationContext) (identity : String)
    (hnodup : (schema.nestedSchema.map DataGroupSpec.name).Nodup)
    (hid : "identity" ∉ schema.nestedSchema.map DataGroupSpec.name)
    (hlocal : ctx.localContext = ⟨[]⟩) :
    (Transformer.construct schema ctx identity).1.dataGroups
        = schema.nestedSchema.map
            (fun s => (s.name, TypeLoader.loadItem s.type s identity)) ∧
    (Transformer.construct schema ctx identity).2.resolve "identity"
        = some (.str identity) ∧
    ∀ s ∈ schema.nestedSchema,
      (Transformer.construct schema ctx identity).2.resolve s.name
        = some (.group (TypeLoader.loadItem s.type s identity)) :=
  ⟨construct_dataGroups schema ctx identity hnodup,
   construct_resolve_identity schema ctx identity hnodup hid hlocal,
   construct_resolve_group schema ctx identity hnodup hlocal⟩

/-- Witness for C5 at a concrete schema with two data groups. -/
theorem construct_builds_groups_and_context_witness :
    (Transformer.construct wSchema EvaluationContext.empty "user-1").1.dataGroups
        = [("state", TypeLoader.loadItem "Blurr:DataGroup:IdentityAggregate"
              { name := "state", type := "Blurr:DataGroup:IdentityAggregate" } "user-1"),
           ("session", TypeLoader.loadItem "Blurr:DataGroup:BlockAggregate"
              { name := "session", type := "Blurr:DataGroup:BlockAggregate" } "user-1")] ∧
    (Transformer.construct wSchema EvaluationContext.empty "user-1").2.resolve "identity"
        = some (.str "user-1") ∧
    (Transformer.construct wSchema EvaluationContext.empty "user-1").2.resolve "state"
        = some (.group (TypeLoader.loadItem "Blurr:DataGroup:IdentityAggregate"
            { name := "state", type := "Blurr:DataGroup:IdentityAggregate" } "user-1")) ∧
    (Transformer.construct wSchema EvaluationContext.empty "user-1").2.resolve "session"
        = some (.group (TypeLoader.loadItem "Blurr:DataGroup:BlockAggregate"
            { name := "session", type := "Blurr:DataGroup:BlockAggregate" } "user-1")) :=
  ⟨(construct_builds_groups_and_context wSchema EvaluationContext.empty "user-1"
      (by decide) (by decide) rfl).1,
   (construct_builds_groups_and_context wSchema EvaluationContext.empty "user-1"
      (by decide) (by decide) rfl).2.1,
   (construct_builds_groups_and_context wSchema EvaluationContext.empty "user-1"
      (by decide) (by decide) rfl).2.2
     { name := "state", type := "Blurr:DataGroup:IdentityAggregate" } (by decide),
   (construct_builds_groups_and_context wSchema EvaluationContext.empty "user-1"
      (by decide) (by decide) rfl).2.2
     { name := "session", type := "Blurr:DataGroup:BlockAggregate" } (by decide)⟩

/-- C4 (counterexample): the schema's `schema_context` — created once per
`TransformerSchema` — is handed by reference to every `Transformer` built from
it, so the root scope is shared rather than per-instance.  After constructing
a first Transformer for `user-a` and a second for `user-b` from the same built
schema, resolving `identity` through the shared context (which is the first
Transformer's evaluation context) yields `user-b`, not the first instance's
`user-a`; and the `state` DataGroup resolvable through that root scope is the
second instance's (its identity is `user-b`). -/
theorem shared_root_scope_counterexample :
    (TransformerSchema.build "test_transformer" c4Spec).toOption.map
        (fun schema =>
          ((Transformer.construct schema
              (Transformer.construct schema schema.schemaContext "user-a").2 "user-b").2.resolve
            "identity",
           (Transformer.construct schema
              (Transformer.construct schema schema.schemaContext "user-a").2 "user-b").2.resolve
            "state"))
      = some (some (Value.str "user-b"),
          some (Value.group { name := "state",
                              typeName := "Blurr:DataGroup:IdentityAggregate",
                              identity := "user-b", fields := [], closed := false })) ∧
    some (Value.str "user-b") ≠ some (Value.str "user-a") := by
  constructor
  · decide
  · decide

/-- C4 (amended): two Transformers constructed from the same TransformerSchema
share the schema's `schema_context` as their root scope; after the second
construction, resolving `identity` through the shared context — the first
instance's evaluation context included — yields the second instance's
identity, not the first's. -/
theorem construct_shares_schema_context (schema : TransformerSchema)
    (ctx : EvaluationContext) (a b : String)
    (hnodup : (schema.nestedSchema.map DataGroupSpec.name).Nodup)
    (hid : "identity" ∉ schema.nestedSchema.map DataGroupSpec.name)
    (hlocal : ctx.localContext = ⟨[]⟩) (hab : a ≠ b) :
    (Transformer.construct schema
        (Transformer.construct schema ctx a).2 b).2.resolve "identity"
      = some (.str b) ∧
    (Transformer.construct schema
        (Transformer.construct schema ctx a).2 b).2.resolve "identity"
      ≠ some (.str a) := by
  have h2 : (Transformer.construct schema ctx a).2.localContext = ⟨[]⟩ := by
    rw [construct_localContext]; exact hlocal
  have hres := construct_resolve_identity schema _ b hnodup hid h2
  refine ⟨hres, ?_⟩
  rw [hres]
  simp only [ne_eq, Option.some.injEq, Value.str.injEq]
  exact fun he => hab he.symm

/-- Witness for the amended C4 at a concrete schema and two identities. -/
theorem construct_shares_schema_context_witness :
    (Transformer.construct wSchema
        (Transformer.construct wSchema EvaluationContext.empty "user-a").2 "user-b").2.resolve
        "identity"
      = some (.str "user-b") ∧
    (Transformer.construct wSchema
        (Transformer.construct wSchema EvaluationContext.empty "user-a").2 "user-b").2.resolve
        "identity"
      ≠ some (.str "user-a") :=
  construct_shares_schema_context wSchema EvaluationContext.empty "user-a" "user-b"
    (by decide) (by decide) rfl (by decide)

/-- C6: `finalize()` invokes finalize on every one of the Transformer's
DataGroups exactly once, in the declaration order of the schema's nested
entries: the trace of finalize invocations is exactly the list of declared
group names. -/
theorem finalize_invokes_in_declaration_order (schema : TransformerSchema)
    (ctx : EvaluationContext) (identity : String) (store : Store)
    (hnodup : (schema.nestedSchema.map DataGroupSpec.name).Nodup) :
    ((Transformer.construct schema ctx identity).1.finalize store).2.2
      = schema.nestedSchema.map DataGroupSpec.name := by
  show (finalizeItems (Transformer.construct schema ctx identity).1.dataGroups store).2.2 = _
  rw [finalizeItems_trace, construct_dataGroups _ _ _ hnodup]
  simp [List.map_map, Function.comp]

/-- Witness for C6 at a concrete schema with two data groups. -/
theorem finalize_invokes_in_declaration_order_witness :
    ((Transformer.construct wSchema EvaluationContext.empty "user-1").1.finalize []).2.2
      = ["state", "session"] :=
  finalize_invokes_in_declaration_order wSchema EvaluationContext.empty "user-1" [] (by decide)

/-- C7: `finalize()` is idempotent — invoking it twice in succession yields
the same DataGroup states and the same persisted Store snapshots as invoking
it once (each group is closed by the first call, and finalize of a closed
group is a no-op). -/
theorem finalize_idempotent (t : Transformer) (store : Store) :
    ((t.finalize store).1.finalize (t.finalize store).2.1).1 = (t.finalize store).1 ∧
    ((t.finalize store).1.finalize (t.finalize store).2.1).2.1 = (t.finalize store).2.1 := by
  have hclosed := finalizeItems_closed t.dataGroups store
  have h2 := finalizeItems_of_closed (finalizeItems t.dataGroups store).1
    (finalizeItems t.dataGroups store).2.1 hclosed
  constructor
  · show ({ t with dataGroups :=
        (finalizeItems (finalizeItems t.dataGroups store).1
          (finalizeItems t.dataGroups store).2.1).1 } : Transformer)
      = { t with dataGroups := (finalizeItems t.dataGroups store).1 }
    rw [h2.1]
  · exact h2.2

/-- The specification used for the duplicate store-name counterexample: the
`Stores` sequence declares the name `memstore` twice, with two different
types. -/
def c9Spec : TransformerSpecMap :=
  { version := some "2018-03-01", description := none,
    stores := some [{ name := "memstore", type := "Blurr:Store:MemoryStore" },
                    { name := "memstore", type := "Blurr:Store:OtherStore" }],
    dataGroups := some [], importList := none }

/-- C9 (counterexample): building a schema whose `Stores` sequence contains
two entries with the same `Name` succeeds — no duplicate-name error is
detected at schema-build time — and the resulting stores mapping silently
keeps a single entry for the duplicated name. -/
theorem duplicate_store_names_counterexample :
    (TransformerSchema.build "test_transformer" c9Spec).isOk = true ∧
    (TransformerSchema.build "test_transformer" c9Spec).toOption.map
        (fun schema => schema.stores)
      = some [("memstore",
          some { name := "memstore", type := "Blurr:Store:OtherStore" })] := by
  constructor
  · decide
  · decide

/-- C9 (amended): a `Stores` sequence with two entries sharing a name builds
without error; the name-keyed stores dict retains exactly one binding for the
duplicated name — the store configuration the schema loader resolves for that
name, which is the last declared one. -/
theorem duplicate_store_last_wins (fq v : String) (nested : List DataGroupSpec)
    (n ty1 ty2 : String) :
    ∃ schema,
      TransformerSchema.build fq
          { version := some v, description := none,
            stores := some [{ name := n, type := ty1 }, { name := n, type := ty2 }],
            dataGroups := some nested, importList := none }
        = .ok schema
      ∧ schema.stores = [(n, some { name := n, type := ty2 })] := by
  refine ⟨_, rfl, ?_⟩
  simp [TransformerSchema.build, dictInsert, getNestedSchemaObject, List.filter]

end Blurr
